import Mathlib

/-
Verification of the DualSense mapper translation engine (src/bin/ds_mapper.py).

The engine is shallowly embedded: the stateful write path `_w`, the two HID
report emitters `_send_keyboard_report` / `_send_mouse_report`, the stick
processors `_process_right_stick` / `_process_left_stick`, the key handler
`_handle_key`, the axis handler `_handle_abs` and the rapid-fire loop
`_rapid_fire_loop` are translated into pure Lean functions.  Python machine
integers are modelled as `Int` and `Nat` (with explicit `% 256` where the
source masks with `0xFF`); Python float sensitivity values are modelled as
exact rationals, with `int(...)` modelled as truncation toward zero
(`truncQ`), which agrees with the source for the dyadic sensitivities used.
The HID byte sink (`/dev/hidg0`) is modelled as a flag `hidOpen` plus an
explicit per-write failure oracle, mirroring the `try/except` that sets
`self.hid_fd = None` on a failed write.  The rapid-fire thread is modelled
as a step relation whose atomic steps are the code segments between the
sleeps of `_rapid_fire_loop`.
-/

namespace DsMapper

/-! Event type and code constants from the evdev tables used by the source. -/

def EV_KEY : Nat := 1
def EV_REL : Nat := 2

def REL_X : Nat := 0
def REL_Y : Nat := 1

def ABS_X : Nat := 0
def ABS_Y : Nat := 1
def ABS_Z : Nat := 2
def ABS_RX : Nat := 3
def ABS_RY : Nat := 4
def ABS_RZ : Nat := 5

def BTN_LEFT : Nat := 272
def BTN_RIGHT : Nat := 273
def BTN_MIDDLE : Nat := 274
def BTN_TL2 : Nat := 312
def BTN_TR2 : Nat := 313

def KEY_W : Nat := 17
def KEY_A : Nat := 30
def KEY_S : Nat := 31
def KEY_D : Nat := 32

/-- EVDEV_TO_HID: evdev key code to USB HID usage, 0 when absent
(`EVDEV_TO_HID.get(code, 0)` in the source). -/
def evdevToHid (code : Nat) : Nat :=
  match code with
  | 30 => 0x04 | 48 => 0x05 | 46 => 0x06 | 32 => 0x07
  | 18 => 0x08 | 33 => 0x09 | 34 => 0x0A | 35 => 0x0B
  | 23 => 0x0C | 36 => 0x0D | 37 => 0x0E | 38 => 0x0F
  | 50 => 0x10 | 49 => 0x11 | 24 => 0x12 | 25 => 0x13
  | 16 => 0x14 | 19 => 0x15 | 31 => 0x16 | 20 => 0x17
  | 22 => 0x18 | 47 => 0x19 | 17 => 0x1A | 45 => 0x1B
  | 21 => 0x1C | 44 => 0x1D
  | 2 => 0x1E | 3 => 0x1F | 4 => 0x20 | 5 => 0x21
  | 6 => 0x22 | 7 => 0x23 | 8 => 0x24 | 9 => 0x25
  | 10 => 0x26 | 11 => 0x27
  | 28 => 0x28 | 1 => 0x29 | 14 => 0x2A | 15 => 0x2B | 57 => 0x2C
  | 12 => 0x2D | 13 => 0x2E | 26 => 0x2F | 27 => 0x30
  | 43 => 0x31 | 39 => 0x33 | 40 => 0x34 | 41 => 0x35
  | 51 => 0x36 | 52 => 0x37 | 53 => 0x38 | 58 => 0x39
  | 59 => 0x3A | 60 => 0x3B | 61 => 0x3C | 62 => 0x3D
  | 63 => 0x3E | 64 => 0x3F | 65 => 0x40 | 66 => 0x41
  | 67 => 0x42 | 68 => 0x43 | 87 => 0x44 | 88 => 0x45
  | _ => 0

/-- MODIFIER_BITS: modifier key code to its bit in the modifier byte,
0 when the code is not a modifier (membership test in the source). -/
def modifierBit (code : Nat) : Nat :=
  if code = 29 then 0x01 else if code = 42 then 0x02
  else if code = 56 then 0x04 else if code = 125 then 0x08
  else if code = 97 then 0x10 else if code = 54 then 0x20
  else if code = 100 then 0x40 else if code = 126 then 0x80
  else 0

/-- MOUSE_BUTTON_BITS: mouse button code to its bit in the button byte,
0 when the code is not a mouse button. -/
def mouseButtonBit (code : Nat) : Nat :=
  if code = BTN_LEFT then 0x01 else if code = BTN_RIGHT then 0x02
  else if code = BTN_MIDDLE then 0x04 else 0

/-! Report codec, translated from `_send_keyboard_report` and
`_send_mouse_report`. -/

/-- Keyboard report bytes, exactly as built in `_send_keyboard_report`:
`[0x01, mod, 0x00] + keys_down + [0x00] * (6 - len(keys_down)) + [0x00, 0x00]`. -/
def keyboardReport (modState : Nat) (keysDown : List Nat) : List Nat :=
  [0x01, modState, 0x00] ++ keysDown
    ++ List.replicate (6 - keysDown.length) 0x00 ++ [0x00, 0x00]

/-- The saturation `max(-127, min(127, v))` applied to dx and dy in
`_send_mouse_report`. -/
def clamp127 (v : Int) : Int := max (-127) (min 127 v)

/-- Mouse report bytes, exactly as built in `_send_mouse_report`:
`[0x02, buttons, dx & 0xFF, dy & 0xFF] + [0x00] * 7` after clamping.
Python `& 0xFF` on a clamped value is `% 256` (Euclidean remainder). -/
def mouseReport (buttons : Nat) (dx dy : Int) : List Nat :=
  [0x02, buttons, (clamp127 dx % 256).toNat, (clamp127 dy % 256).toNat]
    ++ List.replicate 7 0x00

/-! Translation state and the write wrapper `_w`. -/

/-- HID-side translation state (`_mod_state`, `_keys_down`, `_mouse_buttons`)
plus the availability of the HID byte sink (`self.hid_fd is not None`). -/
structure St where
  modState : Nat
  keysDown : List Nat
  mouseButtons : Nat
  hidOpen : Bool
deriving DecidableEq

/-- Initial state built in `__init__`. -/
def initSt : St := { modState := 0, keysDown := [], mouseButtons := 0, hidOpen := true }

/-- Observable outputs of one engine step: a write to the synthetic uinput
device, or a frame written to the HID byte sink. -/
inductive Out where
  | uinput (evType code : Nat) (value : Int)
  | hid (bytes : List Nat)
deriving DecidableEq

/-- Python `x &= ~bit` for a single-bit mask: clear that bit. -/
def clearBit (x bit : Nat) : Nat := x - (x &&& bit)

/-- The `_keys_down` update of the normal-key branch of `_w` (only reached
with a nonzero HID usage): on press of a key not held, `pop(0)` when the
list is full, then `append`; on release, `remove` the first occurrence. -/
def updateKeys (keys : List Nat) (hid : Nat) (value : Int) : List Nat :=
  if value ≠ 0 then
    if hid ∈ keys then keys
    else if 6 ≤ keys.length then keys.drop 1 ++ [hid]
    else keys ++ [hid]
  else keys.erase hid

/-- `_send_keyboard_report`: skipped when the sink is gone; a failing write
disables the sink (`self.hid_fd = None`); otherwise the report frame is
written.  `fails` is the oracle saying whether this write raises. -/
def sendKeyboardReport (st : St) (fails : Bool) : St × List Out :=
  if st.hidOpen = false then (st, [])
  else if fails then ({ st with hidOpen := false }, [])
  else (st, [Out.hid (keyboardReport st.modState st.keysDown)])

/-- `_send_mouse_report`, with the same degrade-on-failure shape. -/
def sendMouseReport (st : St) (dx dy : Int) (fails : Bool) : St × List Out :=
  if st.hidOpen = false then (st, [])
  else if fails then ({ st with hidOpen := false }, [])
  else (st, [Out.hid (mouseReport st.mouseButtons dx dy)])

/-- The wrapper `_w(ev_type, code, value)`: always writes to the uinput
device, returns early when the sink is unavailable, otherwise updates the
relevant state and emits the matching report. -/
def w (st : St) (evType code : Nat) (value : Int) (fails : Bool) : St × List Out :=
  let outU : List Out := [Out.uinput evType code value]
  if st.hidOpen = false then (st, outU)
  else if evType = EV_KEY then
    if mouseButtonBit code ≠ 0 then
      let bit := mouseButtonBit code
      let st1 := { st with mouseButtons :=
        if value ≠ 0 then st.mouseButtons ||| bit else clearBit st.mouseButtons bit }
      let r := sendMouseReport st1 0 0 fails
      (r.1, outU ++ r.2)
    else if modifierBit code ≠ 0 then
      let bit := modifierBit code
      let st1 := { st with modState :=
        if value ≠ 0 then st.modState ||| bit else clearBit st.modState bit }
      let r := sendKeyboardReport st1 fails
      (r.1, outU ++ r.2)
    else
      let hid := evdevToHid code
      if hid ≠ 0 then
        let st1 := { st with keysDown := updateKeys st.keysDown hid value }
        let r := sendKeyboardReport st1 fails
        (r.1, outU ++ r.2)
      else (st, outU)
  else if evType = EV_REL then
    if code = REL_X then
      let r := sendMouseReport st value 0 fails
      (r.1, outU ++ r.2)
    else if code = REL_Y then
      let r := sendMouseReport st 0 value fails
      (r.1, outU ++ r.2)
    else (st, outU)
  else (st, outU)

/-- Run a sequence of `_w` calls, each given as
(ev_type, code, value, write-fails). -/
def runW : St → List (Nat × Nat × Int × Bool) → St × List Out
  | st, [] => (st, [])
  | st, (t, c, v, f) :: rest =>
      let r := w st t c v f
      let r2 := runW r.1 rest
      (r2.1, r.2 ++ r2.2)

/-! Axis processing, translated from `_process_right_stick`,
`_process_left_stick` and `_handle_abs`. -/

/-- Stick and mouse configuration values read in `_parse_cfg`:
`stick.deadzone`, `mouse.sens_x`, `mouse.sens_y`, `stick.invert_y`. -/
structure StickCfg where
  deadzone : Int
  sensX : ℚ
  sensY : ℚ
  invertY : Bool

/-- Python `int(q)` on the modelled rational: truncation toward zero. -/
def truncQ (q : ℚ) : Int := Int.tdiv q.num (q.den : Int)

/-- The deadzone step `if abs(v) < deadzone: v = 0`. -/
def applyDeadzone (dz v : Int) : Int := if |v| < dz then 0 else v

/-- `_process_right_stick`, given the two cached raw samples: recenter,
apply deadzone, skip when both are zero, scale by sensitivity and truncate,
optionally invert Y, and emit the nonzero REL writes in order. -/
def processRightStick (cfg : StickCfg) (lastRX lastRY : Int) : List (Nat × Int) :=
  let rx := applyDeadzone cfg.deadzone (lastRX - 128)
  let ry := applyDeadzone cfg.deadzone (lastRY - 128)
  if rx = 0 ∧ ry = 0 then []
  else
    let dx := truncQ ((rx : ℚ) * cfg.sensX / 10)
    let dy0 := truncQ ((ry : ℚ) * cfg.sensY / 10)
    let dy := if cfg.invertY then -dy0 else dy0
    (if dx ≠ 0 then [(REL_X, dx)] else []) ++ (if dy ≠ 0 then [(REL_Y, dy)] else [])

/-- `_process_left_stick`: recenter, apply deadzone, then derive the four
WASD key states (W before S, A before D, each pair exclusive) and send all
four, in the insertion order of the `keys_state` dict. -/
def processLeftStick (cfg : StickCfg) (lastX lastY : Int) : List (Nat × Int) :=
  let x := applyDeadzone cfg.deadzone (lastX - 128)
  let y := applyDeadzone cfg.deadzone (lastY - 128)
  let kw : Int := if y < -cfg.deadzone then 1 else 0
  let ks : Int := if ¬ y < -cfg.deadzone ∧ cfg.deadzone < y then 1 else 0
  let ka : Int := if x < -cfg.deadzone then 1 else 0
  let kd : Int := if ¬ x < -cfg.deadzone ∧ cfg.deadzone < x then 1 else 0
  [(KEY_W, kw), (KEY_S, ks), (KEY_A, ka), (KEY_D, kd)]

/-- All four directional keys sent released, the left-stick output for a
centered stick. -/
def directionsReleased : List (Nat × Int) :=
  [(KEY_W, 0), (KEY_S, 0), (KEY_A, 0), (KEY_D, 0)]

/-- The six axes initialised in `_last_abs_values` in `__init__`. -/
def trackedAxes : List Nat := [ABS_X, ABS_Y, ABS_RX, ABS_RY, ABS_Z, ABS_RZ]

/-- Initial `_last_abs_values`: the six tracked axes at 0, nothing else. -/
def initLastAbs : Nat → Option Int :=
  fun c => if c ∈ trackedAxes then some 0 else none

/-- The dict store `self._last_abs_values[code] = value`. -/
def storeAbs (m : Nat → Option Int) (code : Nat) (v : Int) : Nat → Option Int :=
  fun c => if c = code then some v else m c

/-- `_handle_abs`: store the raw sample unconditionally, then route to the
right-stick, left-stick or trigger logic.  Outputs are
(ev_type, code, value) writes. -/
def handleAbs (cfg : StickCfg) (m : Nat → Option Int) (code : Nat) (v : Int) :
    (Nat → Option Int) × List (Nat × Nat × Int) :=
  let m2 := storeAbs m code v
  if code = ABS_RX ∨ code = ABS_RY then
    (m2, (processRightStick cfg ((m2 ABS_RX).getD 0) ((m2 ABS_RY).getD 0)).map
      (fun e => (EV_REL, e.1, e.2)))
  else if code = ABS_X ∨ code = ABS_Y then
    (m2, (processLeftStick cfg ((m2 ABS_X).getD 0) ((m2 ABS_Y).getD 0)).map
      (fun e => (EV_KEY, e.1, e.2)))
  else if code = ABS_Z then
    (m2, [(EV_KEY, BTN_LEFT, if 200 < v then 1 else 0)])
  else (m2, [])

/-! Key handling, translated from `_handle_key`. -/

/-- `_handle_key(code, value)`: `keyMap` is the composition of the
name-resolution loop over `dir(ecodes)` with the configured `key_mapping`
table (the default table contains neither BTN_TL2 nor BTN_TR2, so for
those codes it yields `none`).  A mapped button forwards the mapped key and
returns; otherwise a BTN_TR2 press flips the rapid-fire flag, and a
BTN_TL2 event of either value is forwarded as BTN_LEFT.  Returns the new
rapid-fire flag and the emitted key writes. -/
def handleKey (keyMap : Nat → Option Nat) (rfEnabled : Bool) (code : Nat)
    (value : Int) : Bool × List (Nat × Int) :=
  match keyMap code with
  | some target => (rfEnabled, [(target, value)])
  | none =>
      let rf := if code = BTN_TR2 ∧ value = 1 then !rfEnabled else rfEnabled
      let outs := if code = BTN_TL2 then [(BTN_LEFT, value)] else []
      (rf, outs)

/-! Rapid-fire oscillator, translated from `_rapid_fire_loop`.  A step is
one atomic code segment between sleeps: from idle, read the flag and press
when enabled; from pressed, release unconditionally. -/

/-- Oscillator phase: idle (between cycles) or pressed (inside the first
half period of a cycle). -/
inductive RfPhase where
  | idle : RfPhase
  | pressed : RfPhase
deriving DecidableEq

/-- One oscillator step, seeing the current value of `rf_enabled`. -/
def rfStep (btn : Nat) (p : RfPhase) (enabled : Bool) : RfPhase × List (Nat × Int) :=
  match p with
  | RfPhase.pressed => (RfPhase.idle, [(btn, 0)])
  | RfPhase.idle => if enabled then (RfPhase.pressed, [(btn, 1)]) else (RfPhase.idle, [])

/-- Run the oscillator through a sequence of observed flag values, one per
step, collecting the emitted target-button writes. -/
def rfRun (btn : Nat) : RfPhase → List Bool → RfPhase × List (Nat × Int)
  | p, [] => (p, [])
  | p, f :: fs =>
      let r := rfStep btn p f
      let r2 := rfRun btn r.1 fs
      (r2.1, r.2 ++ r2.2)

/-! Helper lemmas. -/

/-- Truncation toward zero of a rational, written with floors. -/
theorem truncQ_eq (q : ℚ) : truncQ q = if 0 ≤ q then ⌊q⌋ else -⌊-q⌋ := by
  unfold truncQ
  split
  · rename_i h
    rw [Rat.floor_def]
    exact Int.tdiv_eq_ediv (Rat.num_nonneg.mpr h) (by positivity)
  · rename_i h
    rw [Rat.floor_def, Rat.neg_num, Rat.neg_den]
    have h2 : Int.tdiv q.num q.den = -Int.tdiv (-q.num) q.den := by
      rw [Int.neg_tdiv, neg_neg]
    rw [h2]
    congr 1
    refine Int.tdiv_eq_ediv ?_ (by positivity)
    have h3 : q.num < 0 := Rat.num_neg.mpr (lt_of_not_ge h)
    omega

/-- Saturation facts about the clamp used by the mouse report encoder. -/
theorem clamp127_sat (v : Int) :
    (-127 ≤ clamp127 v ∧ clamp127 v ≤ 127)
    ∧ (127 < v → clamp127 v = 127)
    ∧ (v < -127 → clamp127 v = -127)
    ∧ (-127 ≤ v → v ≤ 127 → clamp127 v = v) := by
  unfold clamp127
  rw [max_def, min_def]
  split_ifs <;> omega

/-- Both report senders leave the active-key list untouched. -/
theorem sendKeyboardReport_keysDown (st : St) (f : Bool) :
    ((sendKeyboardReport st f).1).keysDown = st.keysDown := by
  unfold sendKeyboardReport
  split_ifs <;> rfl

/-- The mouse sender leaves the active-key list untouched. -/
theorem sendMouseReport_keysDown (st : St) (dx dy : Int) (f : Bool) :
    ((sendMouseReport st dx dy f).1).keysDown = st.keysDown := by
  unfold sendMouseReport
  split_ifs <;> rfl

/-- One `_keys_down` update preserves the 6-element cap and freedom from
duplicates. -/
theorem updateKeys_inv (keys : List Nat) (hid : Nat) (v : Int)
    (h1 : keys.length ≤ 6) (h2 : keys.Nodup) :
    (updateKeys keys hid v).length ≤ 6 ∧ (updateKeys keys hid v).Nodup := by
  unfold updateKeys
  split_ifs with hv hmem hlen
  · exact ⟨h1, h2⟩
  · constructor
    · simp only [List.length_append, List.length_drop, List.length_cons,
        List.length_nil]
      omega
    · rw [List.nodup_append]
      refine ⟨h2.sublist (List.drop_sublist 1 keys), List.nodup_singleton _, ?_⟩
      intro a ha hb
      rw [List.mem_singleton] at hb
      subst hb
      exact hmem (List.mem_of_mem_drop ha)
  · constructor
    · simp only [List.length_append, List.length_cons, List.length_nil]
      omega
    · rw [List.nodup_append]
      refine ⟨h2, List.nodup_singleton _, ?_⟩
      intro a ha hb
      rw [List.mem_singleton] at hb
      subst hb
      exact hmem ha
  · exact ⟨le_trans (List.Sublist.length_le (List.erase_sublist _ _)) h1,
      h2.erase _⟩

/-- One `_w` step preserves the active-key-list invariant. -/
theorem w_keysDown_inv (st : St) (t c : Nat) (v : Int) (f : Bool)
    (h1 : st.keysDown.length ≤ 6) (h2 : st.keysDown.Nodup) :
    ((w st t c v f).1).keysDown.length ≤ 6
    ∧ ((w st t c v f).1).keysDown.Nodup := by
  simp only [w]
  split_ifs <;>
    simp only [sendKeyboardReport_keysDown, sendMouseReport_keysDown] <;>
    first
      | exact ⟨h1, h2⟩
      | exact updateKeys_inv st.keysDown _ v h1 h2

/-- Any run of `_w` steps preserves the active-key-list invariant. -/
theorem runW_keysDown_inv (evs : List (Nat × Nat × Int × Bool)) :
    ∀ st : St, st.keysDown.length ≤ 6 → st.keysDown.Nodup →
      ((runW st evs).1).keysDown.length ≤ 6
      ∧ ((runW st evs).1).keysDown.Nodup := by
  induction evs with
  | nil => intro st h1 h2; exact ⟨h1, h2⟩
  | cons e rest ih =>
      intro st h1 h2
      obtain ⟨t, c, v, f⟩ := e
      simp only [runW]
      have h3 := w_keysDown_inv st t c v f h1 h2
      exact ih _ h3.1 h3.2

/-- A write that never reaches the HID path when the sink is unavailable:
`_w` only writes the uinput event and changes nothing. -/
theorem w_hid_closed (st : St) (t c : Nat) (v : Int) (f : Bool)
    (h : st.hidOpen = false) :
    w st t c v f = (st, [Out.uinput t c v]) := by
  simp [w, h]

/-- With the sink unavailable, a whole run only writes the uinput events. -/
theorem runW_hid_closed (evs : List (Nat × Nat × Int × Bool)) :
    ∀ st : St, st.hidOpen = false →
      runW st evs = (st, evs.map fun e => Out.uinput e.1 e.2.1 e.2.2.1) := by
  induction evs with
  | nil => intro st h; rfl
  | cons e rest ih =>
      intro st h
      obtain ⟨t, c, v, f⟩ := e
      simp only [runW, w_hid_closed st t c v f h, ih st h, List.map_cons]
      rfl

/-! Claim C2: active-key list invariant and FIFO eviction. -/

/-- C2: along every event sequence the active-key list stays at 6 entries
or fewer with no duplicate key code, and a press of a new key while 6 are
held drops the oldest (head) entry before appending the new key. -/
theorem c2_active_keys_invariant (evs : List (Nat × Nat × Int × Bool))
    (keys : List Nat) (hid : Nat) (v : Int)
    (hlen : keys.length = 6) (hmem : hid ∉ keys) (hv : v ≠ 0) :
    ((runW initSt evs).1.keysDown.length ≤ 6
      ∧ (runW initSt evs).1.keysDown.Nodup)
    ∧ updateKeys keys hid v = keys.drop 1 ++ [hid] := by
  constructor
  · exact runW_keysDown_inv evs initSt (by decide) (by decide)
  · unfold updateKeys
    rw [if_pos hv, if_neg hmem, if_pos (by omega)]

/-- C2 witness: a concrete run and a concrete 7th-key eviction. -/
theorem c2_active_keys_invariant_witness :
    ([3, 4, 5, 6, 7, 8] : List Nat).length = 6
    ∧ (9 : Nat) ∉ ([3, 4, 5, 6, 7, 8] : List Nat)
    ∧ (1 : Int) ≠ 0
    ∧ ((runW initSt [(EV_KEY, 30, 1, false)]).1.keysDown.length ≤ 6
        ∧ (runW initSt [(EV_KEY, 30, 1, false)]).1.keysDown.Nodup)
    ∧ updateKeys [3, 4, 5, 6, 7, 8] 9 1 = [4, 5, 6, 7, 8, 9] := by
  refine ⟨by decide, by decide, by decide, ?_, ?_⟩
  · exact (c2_active_keys_invariant [(EV_KEY, 30, 1, false)]
      [3, 4, 5, 6, 7, 8] 9 1 (by decide) (by decide) (by decide)).1
  · exact (c2_active_keys_invariant [(EV_KEY, 30, 1, false)]
      [3, 4, 5, 6, 7, 8] 9 1 (by decide) (by decide) (by decide)).2

/-! Claim C7: HID sink failure degrades the HID channel only. -/

/-- C7: a failing HID write marks the sink unavailable and delivers no
bytes, and from any unavailable-sink state a whole subsequent run skips
every HID report emission while still writing each synthetic uinput
event. -/
theorem c7_hid_failure_degrade (st : St) (dx dy : Int)
    (evs : List (Nat × Nat × Int × Bool)) (h : st.hidOpen = true) :
    ((sendKeyboardReport st true).1.hidOpen = false
      ∧ (sendKeyboardReport st true).2 = [])
    ∧ ((sendMouseReport st dx dy true).1.hidOpen = false
      ∧ (sendMouseReport st dx dy true).2 = [])
    ∧ (∀ st2 : St, st2.hidOpen = false →
        runW st2 evs = (st2, evs.map fun e => Out.uinput e.1 e.2.1 e.2.2.1)) := by
  refine ⟨⟨?_, ?_⟩, ⟨?_, ?_⟩, ?_⟩
  · simp [sendKeyboardReport, h]
  · simp [sendKeyboardReport, h]
  · simp [sendMouseReport, h]
  · simp [sendMouseReport, h]
  · intro st2 h2
    exact runW_hid_closed evs st2 h2

/-- C7 witness: a concrete failure and a concrete skipped-but-forwarded
run after it. -/
theorem c7_hid_failure_degrade_witness :
    initSt.hidOpen = true
    ∧ (sendKeyboardReport initSt true).1.hidOpen = false
    ∧ runW (St.mk 0 [] 0 false) [(EV_KEY, 272, 1, false)]
        = (St.mk 0 [] 0 false, [Out.uinput EV_KEY 272 1]) := by
  refine ⟨by decide, ?_, ?_⟩
  · exact (c7_hid_failure_degrade initSt 0 0 [] (by decide)).1.1
  · exact (c7_hid_failure_degrade initSt 0 0 [(EV_KEY, 272, 1, false)]
      (by decide)).2.2 (St.mk 0 [] 0 false) (by decide)

/-! Claim C10: no HID-side state tracking while the sink is unavailable. -/

/-- C10: when the HID sink is unavailable, an event is still written to
the synthetic output device, but the modifier mask, active-key list and
mouse-button mask are all left unchanged. -/
theorem c10_no_state_tracking_when_unavailable (st : St) (t c : Nat)
    (v : Int) (f : Bool) (h : st.hidOpen = false) :
    (w st t c v f).1.modState = st.modState
    ∧ (w st t c v f).1.keysDown = st.keysDown
    ∧ (w st t c v f).1.mouseButtons = st.mouseButtons
    ∧ (w st t c v f).2 = [Out.uinput t c v] := by
  rw [w_hid_closed st t c v f h]
  exact ⟨rfl, rfl, rfl, rfl⟩

/-- C10 witness: a concrete key event against a closed sink. -/
theorem c10_no_state_tracking_witness :
    (St.mk 3 [4] 1 false).hidOpen = false
    ∧ (w (St.mk 3 [4] 1 false) EV_KEY 30 1 false).1.keysDown = [4]
    ∧ (w (St.mk 3 [4] 1 false) EV_KEY 30 1 false).2 = [Out.uinput EV_KEY 30 1] := by
  refine ⟨rfl, ?_, ?_⟩
  · exact (c10_no_state_tracking_when_unavailable
      (St.mk 3 [4] 1 false) EV_KEY 30 1 false rfl).2.1
  · exact (c10_no_state_tracking_when_unavailable
      (St.mk 3 [4] 1 false) EV_KEY 30 1 false rfl).2.2.2

/-! Claim C1: keyboard report layout. -/

/-- C1 counterexample: the keyboard report actually written for a first
key press is 11 bytes, not the 8 bytes the claim states. -/
theorem c1_report_length_counterexample :
    (w initSt EV_KEY 30 1 false).2
      = [Out.uinput EV_KEY 30 1, Out.hid [1, 0, 0, 4, 0, 0, 0, 0, 0, 0, 0]]
    ∧ ([1, 0, 0, 4, 0, 0, 0, 0, 0, 0, 0] : List Nat).length ≠ 8 := by
  decide

/-- C1 (amended): the keyboard report written to the HID byte sink is
exactly 11 bytes: report-id byte constant 1, modifier byte, one reserved
zero byte, 6 key-code bytes padded with zero, then two trailing zero
bytes; the frame written by a successful send is exactly this encoding of
the current state. -/
theorem c1_keyboard_report_amended (m : Nat) (keys : List Nat) (st : St)
    (hkeys : keys.length ≤ 6) (hst : st.hidOpen = true) :
    keyboardReport m keys
      = [1, m, 0] ++ (keys ++ List.replicate (6 - keys.length) 0) ++ [0, 0]
    ∧ (keys ++ List.replicate (6 - keys.length) 0).length = 6
    ∧ (keyboardReport m keys).length = 11
    ∧ (sendKeyboardReport st false).2
        = [Out.hid (keyboardReport st.modState st.keysDown)] := by
  refine ⟨?_, ?_, ?_, ?_⟩
  · simp [keyboardReport, List.append_assoc]
  · simp only [List.length_append, List.length_replicate]
    omega
  · simp only [keyboardReport, List.length_append, List.length_replicate,
      List.length_cons, List.length_nil]
    omega
  · simp [sendKeyboardReport, hst]

/-- C1 witness: the amended layout at a concrete state. -/
theorem c1_keyboard_report_amended_witness :
    ([4, 5] : List Nat).length ≤ 6 ∧ initSt.hidOpen = true
    ∧ (keyboardReport 2 [4, 5]).length = 11 :=
  ⟨by decide, by decide,
    (c1_keyboard_report_amended 2 [4, 5] initSt (by decide) (by decide)).2.2.1⟩

/-! Claim C3: mouse report layout and clamping. -/

/-- C3: the mouse report is exactly 11 bytes: report-id 2, button mask,
signed dx byte, signed dy byte, then 7 zero bytes; dx and dy are saturated
to [-127, 127] (identity inside the range, clamped to the nearest boundary
outside it, never wrapped) before being placed in the report byte. -/
theorem c3_mouse_report_clamp (buttons : Nat) (dx dy : Int) :
    (mouseReport buttons dx dy).length = 11
    ∧ mouseReport buttons dx dy
        = [2, buttons, (clamp127 dx % 256).toNat, (clamp127 dy % 256).toNat,
           0, 0, 0, 0, 0, 0, 0]
    ∧ (-127 ≤ clamp127 dx ∧ clamp127 dx ≤ 127)
    ∧ (-127 ≤ clamp127 dy ∧ clamp127 dy ≤ 127)
    ∧ (127 < dx → clamp127 dx = 127)
    ∧ (dx < -127 → clamp127 dx = -127)
    ∧ (-127 ≤ dx → dx ≤ 127 → clamp127 dx = dx)
    ∧ (127 < dy → clamp127 dy = 127)
    ∧ (dy < -127 → clamp127 dy = -127)
    ∧ (-127 ≤ dy → dy ≤ 127 → clamp127 dy = dy) :=
  ⟨rfl, rfl, (clamp127_sat dx).1, (clamp127_sat dy).1,
    (clamp127_sat dx).2.1, (clamp127_sat dx).2.2.1, (clamp127_sat dx).2.2.2,
    (clamp127_sat dy).2.1, (clamp127_sat dy).2.2.1, (clamp127_sat dy).2.2.2⟩

/-- C3 witness: saturation at concrete out-of-range deltas. -/
theorem c3_mouse_report_clamp_witness :
    (127 : Int) < 200 ∧ (-200 : Int) < -127
    ∧ clamp127 200 = 127 ∧ clamp127 (-200) = -127
    ∧ mouseReport 1 200 (-200) = [2, 1, 127, 129, 0, 0, 0, 0, 0, 0, 0] :=
  ⟨by decide, by decide,
    (c3_mouse_report_clamp 1 200 (-200)).2.2.2.2.1 (by decide),
    (c3_mouse_report_clamp 1 200 (-200)).2.2.2.2.2.2.2.2.1 (by decide),
    by decide⟩

/-! Claim C6: special handling of the trigger digital buttons. -/

/-- C6 counterexample: a press of the rapid-fire toggle button BTN_TR2
(not present in the default mapping table) forwards no event at all, so
it is not forwarded as the primary mouse button as the claim states. -/
theorem c6_forward_counterexample :
    (handleKey (fun _ => none) false BTN_TR2 1).2 = []
    ∧ ([] : List (Nat × Int)) ≠ [(BTN_LEFT, 1)] := by
  decide

/-- C6 (amended): the unmapped button forwarded as the primary mouse
button for both press and release is the primary-trigger digital button
BTN_TL2; the unmapped rapid-fire toggle button BTN_TR2 forwards nothing
and only flips the rapid-fire flag, on press only. -/
theorem c6_special_buttons_amended (keyMap : Nat → Option Nat) (rf : Bool)
    (v : Int) (hTL2 : keyMap BTN_TL2 = none) (hTR2 : keyMap BTN_TR2 = none) :
    ((handleKey keyMap rf BTN_TL2 v).2 = [(BTN_LEFT, v)]
      ∧ (handleKey keyMap rf BTN_TL2 v).1 = rf)
    ∧ ((handleKey keyMap rf BTN_TR2 v).2 = []
      ∧ (v = 1 → (handleKey keyMap rf BTN_TR2 v).1 = !rf)
      ∧ (v ≠ 1 → (handleKey keyMap rf BTN_TR2 v).1 = rf)) := by
  constructor
  · unfold handleKey
    rw [hTL2]
    simp [BTN_TL2, BTN_TR2]
  · unfold handleKey
    rw [hTR2]
    refine ⟨?_, ?_, ?_⟩
    · simp [BTN_TL2, BTN_TR2]
    · intro hv
      simp [BTN_TR2, hv]
    · intro hv
      simp [BTN_TR2, hv]

/-- C6 witness: concrete L2 release forwarding, and a concrete toggle. -/
theorem c6_special_buttons_amended_witness :
    ((fun _ => none : Nat → Option Nat) BTN_TL2 = none)
    ∧ ((fun _ => none : Nat → Option Nat) BTN_TR2 = none)
    ∧ (handleKey (fun _ => none) false BTN_TL2 0).2 = [(BTN_LEFT, 0)]
    ∧ (handleKey (fun _ => none) true BTN_TR2 1).1 = false := by
  refine ⟨rfl, rfl, ?_, ?_⟩
  · exact (c6_special_buttons_amended (fun _ => none) false 0 rfl rfl).1.1
  · exact ((c6_special_buttons_amended (fun _ => none) true 1 rfl rfl).2.2.1 rfl)

/-! Claim C8: the last-axis-value table. -/

/-- C8 counterexample: one analog event with the untracked axis code 16
(ABS_HAT0X, the d-pad) adds a seventh key to the table, so the key set
does not stay exactly the six tracked axes. -/
theorem c8_keyset_counterexample :
    ((handleAbs (StickCfg.mk 10 (1/2) (1/2) false) initLastAbs 16 1).1 16).isSome
      = true
    ∧ (initLastAbs 16).isSome = false
    ∧ (16 : Nat) ∉ trackedAxes := by
  refine ⟨rfl, by decide, by decide⟩

/-- C8 (amended): the table starts with exactly the six tracked axes,
and every analog-axis event stores its raw sample under its code
unconditionally (regardless of any deadzone) while leaving every other
entry unchanged; an event whose code is untracked therefore grows the key
set beyond the six tracked axes. -/
theorem c8_last_axis_amended (cfg : StickCfg) (m : Nat → Option Int)
    (code : Nat) (v : Int) :
    (handleAbs cfg m code v).1 code = some v
    ∧ (∀ c : Nat, c ≠ code → (handleAbs cfg m code v).1 c = m c)
    ∧ (∀ c : Nat, (initLastAbs c).isSome = true ↔ c ∈ trackedAxes) := by
  have hfst : (handleAbs cfg m code v).1 = storeAbs m code v := by
    unfold handleAbs
    split_ifs <;> rfl
  refine ⟨?_, ?_, ?_⟩
  · rw [hfst]
    simp [storeAbs]
  · intro c hc
    rw [hfst]
    simp [storeAbs, hc]
  · intro c
    unfold initLastAbs
    split_ifs with hmem
    · simpa using hmem
    · simp [hmem]

/-- C8 witness: a concrete store on axis ABS_RX leaving ABS_Z alone. -/
theorem c8_last_axis_amended_witness :
    (2 : Nat) ≠ 3
    ∧ (handleAbs (StickCfg.mk 10 (1/2) (1/2) false) initLastAbs 3 7).1 3 = some 7
    ∧ (handleAbs (StickCfg.mk 10 (1/2) (1/2) false) initLastAbs 3 7).1 2
        = initLastAbs 2 := by
  refine ⟨by decide, ?_, ?_⟩
  · exact (c8_last_axis_amended (StickCfg.mk 10 (1/2) (1/2) false)
      initLastAbs 3 7).1
  · exact (c8_last_axis_amended (StickCfg.mk 10 (1/2) (1/2) false)
      initLastAbs 3 7).2.1 2 (by decide)

/-! Claim C9: rapid-fire returns to idle released when toggled off. -/

/-- From idle, with the flag observed off at every step, the oscillator
emits nothing and stays idle. -/
theorem rfRun_idle_off (btn : Nat) (flags : List Bool) :
    (∀ f ∈ flags, f = false) →
      rfRun btn RfPhase.idle flags = (RfPhase.idle, []) := by
  induction flags with
  | nil => intro h; rfl
  | cons f fs ih =>
      intro h
      have hf : f = false := h f (List.mem_cons_self f fs)
      subst hf
      have hrec := ih fun g hg => h g (List.mem_cons_of_mem false hg)
      simp only [rfRun, rfStep, Bool.false_eq_true, if_false]
      rw [hrec]
      rfl

/-- C9: once the rapid-fire flag stays off, the oscillator emits no
further press of the target button; if it was mid-cycle (pressed) it
emits exactly one release of the target button and nothing else, and it
ends idle. -/
theorem c9_rapid_fire_release (btn : Nat) (p : RfPhase) (flags : List Bool)
    (hoff : ∀ f ∈ flags, f = false) :
    ((btn, (1 : Int)) ∉ (rfRun btn p flags).2)
    ∧ (flags ≠ [] → (rfRun btn p flags).1 = RfPhase.idle)
    ∧ (p = RfPhase.pressed → flags ≠ [] → (rfRun btn p flags).2 = [(btn, 0)])
    ∧ (p = RfPhase.idle → (rfRun btn p flags).2 = []) := by
  cases flags with
  | nil =>
      refine ⟨by simp [rfRun], fun h => absurd rfl h, fun _ h => absurd rfl h, ?_⟩
      intro hp
      rfl
  | cons f fs =>
      have hf : f = false := hoff f (List.mem_cons_self f fs)
      subst hf
      have hrest : rfRun btn RfPhase.idle fs = (RfPhase.idle, []) :=
        rfRun_idle_off btn fs fun g hg => hoff g (List.mem_cons_of_mem false hg)
      cases p with
      | idle =>
          have hall : rfRun btn RfPhase.idle (false :: fs) = (RfPhase.idle, []) :=
            rfRun_idle_off btn (false :: fs) hoff
          rw [hall]
          refine ⟨by simp, fun _ => rfl, ?_, fun _ => rfl⟩
          intro hp
          exact absurd hp (by simp)
      | pressed =>
          have hall : rfRun btn RfPhase.pressed (false :: fs)
              = (RfPhase.idle, [(btn, 0)]) := by
            simp [rfRun, rfStep, hrest]
          rw [hall]
          refine ⟨by simp, fun _ => rfl, fun _ _ => rfl, ?_⟩
          intro hp
          exact absurd hp (by simp)

/-- C9 witness: the oscillator caught mid-cycle with the flag off. -/
theorem c9_rapid_fire_release_witness :
    (∀ f ∈ ([false, false] : List Bool), f = false)
    ∧ (rfRun 273 RfPhase.pressed [false, false]).2 = [(273, 0)]
    ∧ (rfRun 273 RfPhase.pressed [false, false]).1 = RfPhase.idle := by
  refine ⟨by decide, ?_, ?_⟩
  · exact (c9_rapid_fire_release 273 RfPhase.pressed [false, false]
      (by decide)).2.2.1 rfl (by decide)
  · exact (c9_rapid_fire_release 273 RfPhase.pressed [false, false]
      (by decide)).2.1 (by decide)

/-! Claim C4: pointer-stick delta formula. -/

/-- C4 counterexample: at raw ABS_RX 63 (centered value -65) with
sensitivity 1/2, the emitted delta is -3 (truncation toward zero), while
the floor formula of the claim demands -4. -/
theorem c4_floor_counterexample :
    processRightStick (StickCfg.mk 10 (1/2) (1/2) false) 63 128 = [(REL_X, -3)]
    ∧ Int.floor ((applyDeadzone 10 ((63 : Int) - 128) : ℚ) * (1/2) / 10) = -4
    ∧ ((-3 : Int) ≠ -4) := by
  have h1 : applyDeadzone 10 ((63 : Int) - 128) = -65 := by decide
  refine ⟨?_, ?_, by decide⟩
  · have h2 : applyDeadzone 10 ((128 : Int) - 128) = 0 := by decide
    have h3 : truncQ (((-65 : Int) : ℚ) * (1 / 2) / 10) = -3 := by
      rw [truncQ_eq]
      norm_num
    have h4 : truncQ (((0 : Int) : ℚ) * (1 / 2) / 10) = 0 := by
      rw [truncQ_eq]
      norm_num
    simp only [processRightStick, h1, h2, h3, h4]
    norm_num
  · rw [h1]
    norm_num

/-- C4 (amended): every emitted pointer delta equals the truncation
toward zero (not the floor) of the centered, deadzone-applied value times
the sensitivity over 10, with the Y delta negated when Y-inversion is
configured; the concrete scenario raw (ABS_RX 68, ABS_RY 128) with
sensitivity 1/2 yields exactly dx = -3 and no Y delta. -/
theorem c4_pointer_delta_amended (cfg : StickCfg) (a b v : Int) :
    ((REL_X, v) ∈ processRightStick cfg a b →
      v = truncQ ((applyDeadzone cfg.deadzone (a - 128) : ℚ) * cfg.sensX / 10)
      ∧ v ≠ 0)
    ∧ ((REL_Y, v) ∈ processRightStick cfg a b →
      v = (if cfg.invertY
        then -truncQ ((applyDeadzone cfg.deadzone (b - 128) : ℚ) * cfg.sensY / 10)
        else truncQ ((applyDeadzone cfg.deadzone (b - 128) : ℚ) * cfg.sensY / 10))
      ∧ v ≠ 0)
    ∧ processRightStick (StickCfg.mk 10 (1/2) (1/2) false) 68 128
        = [(REL_X, -3)] := by
  refine ⟨?_, ?_, ?_⟩
  · intro hmem
    simp only [processRightStick] at hmem
    by_cases hc : applyDeadzone cfg.deadzone (a - 128) = 0
        ∧ applyDeadzone cfg.deadzone (b - 128) = 0
    · rw [if_pos hc] at hmem
      exact absurd hmem (List.not_mem_nil _)
    · rw [if_neg hc, List.mem_append] at hmem
      rcases hmem with h | h
      · by_cases hdx : truncQ ((applyDeadzone cfg.deadzone (a - 128) : ℚ)
            * cfg.sensX / 10) ≠ 0
        · rw [if_pos hdx, List.mem_singleton, Prod.mk.injEq] at h
          refine ⟨h.2, ?_⟩
          rw [h.2]
          exact hdx
        · rw [if_neg hdx] at h
          exact absurd h (List.not_mem_nil _)
      · split_ifs at h <;> simp [REL_X, REL_Y] at h
  · intro hmem
    simp only [processRightStick] at hmem
    by_cases hc : applyDeadzone cfg.deadzone (a - 128) = 0
        ∧ applyDeadzone cfg.deadzone (b - 128) = 0
    · rw [if_pos hc] at hmem
      exact absurd hmem (List.not_mem_nil _)
    · rw [if_neg hc, List.mem_append] at hmem
      rcases hmem with h | h
      · split_ifs at h <;> simp [REL_X, REL_Y] at h
      · by_cases hdy : (if cfg.invertY
            then -truncQ ((applyDeadzone cfg.deadzone (b - 128) : ℚ) * cfg.sensY / 10)
            else truncQ ((applyDeadzone cfg.deadzone (b - 128) : ℚ) * cfg.sensY / 10))
            ≠ 0
        · rw [if_pos hdy, List.mem_singleton, Prod.mk.injEq] at h
          refine ⟨h.2, ?_⟩
          rw [h.2]
          exact hdy
        · rw [if_neg hdy] at h
          exact absurd h (List.not_mem_nil _)
  · have h1 : applyDeadzone 10 ((68 : Int) - 128) = -60 := by decide
    have h2 : applyDeadzone 10 ((128 : Int) - 128) = 0 := by decide
    have h3 : truncQ (((-60 : Int) : ℚ) * (1 / 2) / 10) = -3 := by
      rw [truncQ_eq]
      norm_num
    have h4 : truncQ (((0 : Int) : ℚ) * (1 / 2) / 10) = 0 := by
      rw [truncQ_eq]
      norm_num
    simp only [processRightStick, h1, h2, h3, h4]
    norm_num

/-- C4 witness: the REL_X membership hypothesis discharged at the
concrete scenario. -/
theorem c4_pointer_delta_amended_witness :
    (REL_X, (-3 : Int)) ∈ processRightStick (StickCfg.mk 10 (1/2) (1/2) false) 68 128
    ∧ (-3 : Int)
        = truncQ ((applyDeadzone (StickCfg.mk 10 (1/2) (1/2) false).deadzone
            ((68 : Int) - 128) : ℚ) * (StickCfg.mk 10 (1/2) (1/2) false).sensX / 10) := by
  have hmem : (REL_X, (-3 : Int))
      ∈ processRightStick (StickCfg.mk 10 (1/2) (1/2) false) 68 128 := by
    rw [(c4_pointer_delta_amended (StickCfg.mk 10 (1/2) (1/2) false) 68 128 (-3)).2.2]
    exact List.mem_singleton.mpr rfl
  exact ⟨hmem,
    ((c4_pointer_delta_amended (StickCfg.mk 10 (1/2) (1/2) false) 68 128 (-3)).1 hmem).1⟩

/-! Claim C5: deadzone symmetry and boundary behaviour. -/

/-- The deadzone maps a centered value of 0 to 0. -/
theorem applyDeadzone_zero (dz : Int) : applyDeadzone dz 0 = 0 := by
  unfold applyDeadzone
  split <;> rfl

/-- Inside the deadzone the value is zeroed. -/
theorem applyDeadzone_small (dz v : Int) (h : |v| < dz) :
    applyDeadzone dz v = 0 := by
  unfold applyDeadzone
  rw [if_pos h]

/-- At or beyond the deadzone the value passes through unchanged. -/
theorem applyDeadzone_keep (dz v : Int) (h : ¬ |v| < dz) :
    applyDeadzone dz v = v := by
  unfold applyDeadzone
  rw [if_neg h]

/-- When both centered values come out of the deadzone as 0, the pointer
stick emits nothing. -/
theorem processRightStick_centered (cfg : StickCfg) (a b : Int)
    (ha : applyDeadzone cfg.deadzone (a - 128) = 0)
    (hb : applyDeadzone cfg.deadzone (b - 128) = 0) :
    processRightStick cfg a b = [] := by
  simp only [processRightStick, ha, hb]
  simp

/-- When neither centered value passes the directional thresholds, the
digital stick sends all four directions released. -/
theorem processLeftStick_released (cfg : StickCfg) (a b : Int)
    (hx1 : ¬ applyDeadzone cfg.deadzone (a - 128) < -cfg.deadzone)
    (hx2 : ¬ cfg.deadzone < applyDeadzone cfg.deadzone (a - 128))
    (hy1 : ¬ applyDeadzone cfg.deadzone (b - 128) < -cfg.deadzone)
    (hy2 : ¬ cfg.deadzone < applyDeadzone cfg.deadzone (b - 128)) :
    processLeftStick cfg a b = directionsReleased := by
  simp only [processLeftStick, directionsReleased]
  rw [if_neg hy1, if_neg (fun hk => hy2 hk.2), if_neg hx1,
    if_neg (fun hk => hx2 hk.2)]

/-- C5 counterexample: at exactly d = deadzone the pointer-stick value is
not zeroed, and with sensitivity 2 a displacement is emitted, refuting
the claim that at the boundary no displacement is asserted. -/
theorem c5_boundary_counterexample :
    processRightStick (StickCfg.mk 10 2 2 false) 138 128 = [(REL_X, 2)]
    ∧ [(REL_X, (2 : Int))] ≠ ([] : List (Nat × Int)) := by
  refine ⟨?_, by decide⟩
  have h1 : applyDeadzone 10 ((138 : Int) - 128) = 10 := by decide
  have h2 : applyDeadzone 10 ((128 : Int) - 128) = 0 := by decide
  have h3 : truncQ (((10 : Int) : ℚ) * 2 / 10) = 2 := by
    rw [truncQ_eq]
    norm_num
  have h4 : truncQ (((0 : Int) : ℚ) * 2 / 10) = 0 := by
    rw [truncQ_eq]
    norm_num
  simp only [processRightStick, h1, h2, h3, h4]
  norm_num

/-- C5 (amended): for every offset d strictly inside the deadzone, samples
128-d and 128+d on either axis yield zero pointer displacement and no
asserted direction; at d = deadzone exactly the digital stick still
asserts no direction, but the pointer stick does not zero the value and
emits the displacement trunc(deadzone * sens / 10) whenever that value is
nonzero. -/
theorem c5_deadzone_amended (cfg : StickCfg) (d : Int) :
    (0 ≤ d → d < cfg.deadzone →
      processRightStick cfg (128 - d) 128 = []
      ∧ processRightStick cfg (128 + d) 128 = []
      ∧ processRightStick cfg 128 (128 - d) = []
      ∧ processRightStick cfg 128 (128 + d) = []
      ∧ processLeftStick cfg (128 - d) 128 = directionsReleased
      ∧ processLeftStick cfg (128 + d) 128 = directionsReleased
      ∧ processLeftStick cfg 128 (128 - d) = directionsReleased
      ∧ processLeftStick cfg 128 (128 + d) = directionsReleased)
    ∧ (0 ≤ cfg.deadzone →
      processLeftStick cfg (128 + cfg.deadzone) 128 = directionsReleased
      ∧ processLeftStick cfg (128 - cfg.deadzone) 128 = directionsReleased
      ∧ processLeftStick cfg 128 (128 + cfg.deadzone) = directionsReleased
      ∧ processLeftStick cfg 128 (128 - cfg.deadzone) = directionsReleased
      ∧ processRightStick cfg (128 + cfg.deadzone) 128
          = (if truncQ ((cfg.deadzone : ℚ) * cfg.sensX / 10) = 0 then []
             else [(REL_X, truncQ ((cfg.deadzone : ℚ) * cfg.sensX / 10))])) := by
  constructor
  · intro hd0 hdlt
    have hdzpos : 0 < cfg.deadzone := lt_of_le_of_lt hd0 hdlt
    have hzero : applyDeadzone cfg.deadzone ((128 : Int) - 128) = 0 := by
      rw [show (128 : Int) - 128 = 0 by ring]
      exact applyDeadzone_zero _
    have hminus : applyDeadzone cfg.deadzone ((128 : Int) - d - 128) = 0 := by
      rw [show (128 : Int) - d - 128 = -d by ring]
      refine applyDeadzone_small _ _ ?_
      rw [abs_neg, abs_of_nonneg hd0]
      exact hdlt
    have hplus : applyDeadzone cfg.deadzone ((128 : Int) + d - 128) = 0 := by
      rw [show (128 : Int) + d - 128 = d by ring]
      refine applyDeadzone_small _ _ ?_
      rw [abs_of_nonneg hd0]
      exact hdlt
    have hno1 : ¬ (0 : Int) < -cfg.deadzone := by omega
    have hno2 : ¬ cfg.deadzone < (0 : Int) := by omega
    refine ⟨processRightStick_centered cfg _ _ hminus hzero,
      processRightStick_centered cfg _ _ hplus hzero,
      processRightStick_centered cfg _ _ hzero hminus,
      processRightStick_centered cfg _ _ hzero hplus,
      ?_, ?_, ?_, ?_⟩
    · refine processLeftStick_released cfg _ _ ?_ ?_ ?_ ?_
      · rw [hminus]; exact hno1
      · rw [hminus]; exact hno2
      · rw [hzero]; exact hno1
      · rw [hzero]; exact hno2
    · refine processLeftStick_released cfg _ _ ?_ ?_ ?_ ?_
      · rw [hplus]; exact hno1
      · rw [hplus]; exact hno2
      · rw [hzero]; exact hno1
      · rw [hzero]; exact hno2
    · refine processLeftStick_released cfg _ _ ?_ ?_ ?_ ?_
      · rw [hzero]; exact hno1
      · rw [hzero]; exact hno2
      · rw [hminus]; exact hno1
      · rw [hminus]; exact hno2
    · refine processLeftStick_released cfg _ _ ?_ ?_ ?_ ?_
      · rw [hzero]; exact hno1
      · rw [hzero]; exact hno2
      · rw [hplus]; exact hno1
      · rw [hplus]; exact hno2
  · intro hdz0
    have hzero : applyDeadzone cfg.deadzone ((128 : Int) - 128) = 0 := by
      rw [show (128 : Int) - 128 = 0 by ring]
      exact applyDeadzone_zero _
    have hBp : applyDeadzone cfg.deadzone ((128 : Int) + cfg.deadzone - 128)
        = cfg.deadzone := by
      rw [show (128 : Int) + cfg.deadzone - 128 = cfg.deadzone by ring]
      refine applyDeadzone_keep _ _ ?_
      rw [abs_of_nonneg hdz0]
      omega
    have hBm : applyDeadzone cfg.deadzone ((128 : Int) - cfg.deadzone - 128)
        = -cfg.deadzone := by
      rw [show (128 : Int) - cfg.deadzone - 128 = -cfg.deadzone by ring]
      refine applyDeadzone_keep _ _ ?_
      rw [abs_neg, abs_of_nonneg hdz0]
      omega
    have hno1 : ¬ (0 : Int) < -cfg.deadzone := by omega
    have hno2 : ¬ cfg.deadzone < (0 : Int) := by omega
    have hnoBp1 : ¬ cfg.deadzone < -cfg.deadzone := by omega
    have hnoBp2 : ¬ cfg.deadzone < cfg.deadzone := by omega
    have hnoBm1 : ¬ -cfg.deadzone < -cfg.deadzone := by omega
    refine ⟨?_, ?_, ?_, ?_, ?_⟩
    · refine processLeftStick_released cfg _ _ ?_ ?_ ?_ ?_
      · rw [hBp]; exact hnoBp1
      · rw [hBp]; exact hnoBp2
      · rw [hzero]; exact hno1
      · rw [hzero]; exact hno2
    · refine processLeftStick_released cfg _ _ ?_ ?_ ?_ ?_
      · rw [hBm]; exact hnoBm1
      · rw [hBm]; exact hnoBp1
      · rw [hzero]; exact hno1
      · rw [hzero]; exact hno2
    · refine processLeftStick_released cfg _ _ ?_ ?_ ?_ ?_
      · rw [hzero]; exact hno1
      · rw [hzero]; exact hno2
      · rw [hBp]; exact hnoBp1
      · rw [hBp]; exact hnoBp2
    · refine processLeftStick_released cfg _ _ ?_ ?_ ?_ ?_
      · rw [hzero]; exact hno1
      · rw [hzero]; exact hno2
      · rw [hBm]; exact hnoBm1
      · rw [hBm]; exact hnoBp1
    · by_cases hdzz : cfg.deadzone = 0
      · have hL : processRightStick cfg (128 + cfg.deadzone) 128 = [] := by
          refine processRightStick_centered cfg _ _ ?_ hzero
          rw [hBp, hdzz]
        rw [hL, hdzz]
        have ht0 : truncQ (((0 : Int) : ℚ) * cfg.sensX / 10) = 0 := by
          rw [truncQ_eq]
          simp
        rw [ht0]
        simp
      · have hdy0 : truncQ (((0 : Int) : ℚ) * cfg.sensY / 10) = 0 := by
          rw [truncQ_eq]
          simp
        simp only [processRightStick, hBp, hzero, hdy0]
        rw [if_neg (fun hcc => hdzz hcc.1)]
        simp only [neg_zero, ite_self]
        by_cases hdx : truncQ ((cfg.deadzone : ℚ) * cfg.sensX / 10) = 0
        · rw [if_pos hdx]
          simp [hdx]
        · rw [if_neg hdx]
          simp [hdx]

/-- C5 witness: inside-deadzone samples at d = 9 and the d = 10 digital
boundary under the default configuration. -/
theorem c5_deadzone_amended_witness :
    (0 : Int) ≤ 9
    ∧ (9 : Int) < (StickCfg.mk 10 (1/2) (1/2) false).deadzone
    ∧ (0 : Int) ≤ (StickCfg.mk 10 (1/2) (1/2) false).deadzone
    ∧ processRightStick (StickCfg.mk 10 (1/2) (1/2) false) (128 - 9) 128 = []
    ∧ processLeftStick (StickCfg.mk 10 (1/2) (1/2) false) (128 + 9) 128
        = directionsReleased
    ∧ processLeftStick (StickCfg.mk 10 (1/2) (1/2) false)
        (128 + (StickCfg.mk 10 (1/2) (1/2) false).deadzone) 128
        = directionsReleased := by
  refine ⟨by decide, by decide, by decide, ?_, ?_, ?_⟩
  · exact ((c5_deadzone_amended (StickCfg.mk 10 (1/2) (1/2) false) 9).1
      (by decide) (by decide)).1
  · exact ((c5_deadzone_amended (StickCfg.mk 10 (1/2) (1/2) false) 9).1
      (by decide) (by decide)).2.2.2.2.2.1
  · exact ((c5_deadzone_amended (StickCfg.mk 10 (1/2) (1/2) false) 9).2
      (by decide)).1

end DsMapper
